import Mathlib

/-!
Verification of the `citations` Google Scholar scraper (Rust) against its
natural-language specification.

Shallow embedding notes:
* Strings are modelled as `List Char`; `chars` converts a Lean string literal.
* Rust regexes are translated into explicit scanning functions with the same
  (leftmost-first, greedy) capture semantics; `\d` is modelled as an ASCII
  digit and `\s` as `Char.isWhitespace` (the inputs relevant to the claims
  are ASCII).
* Machine integers are `Nat` with explicit range checks where the Rust code
  can overflow: `str::parse::<u64>` / `::<u32>` fail (or, after `.unwrap()`,
  panic) on values outside the range, which the embedding makes explicit.
* Fallible Rust functions returning `Result` become `Except`; a Rust
  `.unwrap()` panic on `None`/`Err` is modelled by an explicit `panicked`
  error (or `Option.none` where indicated), since a panic aborts the program.
* The `select` crate's parsed HTML is modelled by the `Html` tree below; a
  `Document` is the forest of its root nodes.  `Document::from` (raw-text
  HTML parsing, external library) is not modelled: fetchers produce parsed
  documents directly.
-/

/-- Convert a string literal to the `List Char` representation used throughout. -/
def chars (s : String) : List Char := s.data

/-- Boolean test that `pat` is an initial segment of `s` (used for the literal
alternatives of the Rust regexes).  Short-circuits at the first mismatch. -/
def startsWithPat : List Char → List Char → Bool
  | [], _ => true
  | _ :: _, [] => false
  | p :: ps, c :: cs => p == c && startsWithPat ps cs

/-- True when matching `pat` against `u` hits a mismatching character inside
`u` (so `pat` cannot be a prefix of `u ++ v` for any continuation `v`). -/
def mismatchWithin : List Char → List Char → Bool
  | _, [] => false
  | [], _ :: _ => false
  | c :: u, p :: pat => p != c || mismatchWithin u pat

/-- True when at every suffix of `u` the pattern `pat` mismatches within `u`
itself: no occurrence of `pat` starts inside `u`, even one overflowing into
an appended continuation. -/
def allPosMismatch : List Char → List Char → Bool
  | [], _ => true
  | c :: u, pat => mismatchWithin (c :: u) pat && allPosMismatch u pat

/-- Decimal value of a digit character list (big-endian), accumulator form. -/
def decValAux (a : Nat) : List Char → Nat
  | [] => a
  | c :: cs => decValAux (10 * a + (c.toNat - 48)) cs

/-- Decimal value of a digit character list (big-endian). -/
def decimalValue (ds : List Char) : Nat := decValAux 0 ds

/-- The character of a decimal digit (like the core library's digit-to-char
conversion; only `0`–`9` are ever used). -/
def decDigitChar : Nat → Char
  | 0 => '0' | 1 => '1' | 2 => '2' | 3 => '3' | 4 => '4'
  | 5 => '5' | 6 => '6' | 7 => '7' | 8 => '8' | 9 => '9'
  | _ => '*'

/-- Big-endian decimal digit characters of `n`; empty for `0`.  Defined by
well-founded recursion, used for reasoning; `natToDecChars` below is the
executable (kernel-reducible) version. -/
def decCharsRec (n : Nat) : List Char :=
  if h : n = 0 then []
  else decCharsRec (n / 10) ++ [decDigitChar (n % 10)]
decreasing_by exact Nat.div_lt_self (Nat.pos_of_ne_zero h) (by norm_num)

/-- Fuel-driven digit accumulation so that decimal rendering reduces inside
the kernel (`decide`/`rfl`). -/
def toDecAux : Nat → Nat → List Char → List Char
  | 0, _, acc => acc
  | fuel + 1, n, acc =>
    if n = 0 then acc else toDecAux fuel (n / 10) (decDigitChar (n % 10) :: acc)

/-- Decimal rendering of `n`, as Rust's `format!("{}", n)` produces it. -/
def natToDecChars (n : Nat) : List Char :=
  if n = 0 then ['0'] else toDecAux n n []

/-- Errors of the library crate (`src/errors.rs`): `BadHtml`, the
`ResultNotFount` kind used by `try_html_found!`, the foreign-linked
`ParseIntError` produced by `str::parse` through `?`, and an explicit
`panicked` marker for `.unwrap()` aborts (a Rust panic, not an error value;
made explicit by the embedding). -/
inductive ScrapeErr where
  | badHtml
  | resultNotFound
  | parseIntErr
  | panicked
deriving DecidableEq, Repr

/-!
## `src/scrape.rs`: the regex helpers

`parse_cluster_id` uses `Regex::new(r"(cluster|cites)=(\d+)")` and
`caps.get(2).as_str().parse()?` (a `u64` parse, so values ≥ 2^64 give a
`ParseIntError` through the `?`).  The scan below reproduces the regex's
leftmost-match semantics: at each position try the literal alternatives
`cluster=` / `cites=` (they can never both match at one position) followed by
a greedy nonempty digit run.
-/

/-- Leftmost `(cluster|cites)=(\d+)` match: returns the captured digit run. -/
def clusterIdScan : List Char → Option (List Char)
  | [] => none
  | c :: rest =>
    if startsWithPat (chars "cluster=") (c :: rest) then
      let ds := ((c :: rest).drop 8).takeWhile Char.isDigit
      if ds.isEmpty then clusterIdScan rest else some ds
    else if startsWithPat (chars "cites=") (c :: rest) then
      let ds := ((c :: rest).drop 6).takeWhile Char.isDigit
      if ds.isEmpty then clusterIdScan rest else some ds
    else clusterIdScan rest

/-- `parse_cluster_id` (src/scrape.rs:321).  `BadHtml` when the regex does not
match; `ParseIntError` (via `?`) when the digit run overflows `u64`. -/
def parse_cluster_id (url : List Char) : Except ScrapeErr Nat :=
  match clusterIdScan url with
  | none => .error .badHtml
  | some ds =>
    let v := decimalValue ds
    if v < 2 ^ 64 then .ok v else .error .parseIntErr

/-- Scanner for `Regex::new(r"[^\d]+(\d+)")` of `parse_citation_count`:
the leftmost match needs at least one non-digit immediately before the digit
run, so the capture is the first digit run preceded by a non-digit; a leading
digit run can never be captured.  `seen` records whether a non-digit has been
passed. -/
def findRun (seen : Bool) : List Char → Option (List Char)
  | [] => none
  | c :: cs =>
    if c.isDigit then
      if seen then some (c :: cs.takeWhile Char.isDigit) else findRun seen cs
    else findRun true cs

/-- `parse_citation_count` (src/scrape.rs:337).  `BadHtml` when the regex does
not match; the Rust code then does `caps.get(1).as_str().parse().unwrap()`
into `u32`, which panics on overflow. -/
def parse_citation_count (text : List Char) : Except ScrapeErr Nat :=
  match findRun false text with
  | none => .error .badHtml
  | some ds =>
    let v := decimalValue ds
    if v < 2 ^ 32 then .ok v else .error .panicked

/-!
## `src/paper.rs`: the `Paper` struct

The struct mirrors the Rust one (including the `year` field set by
`scrape_paper_one`).  `GOOGLESCHOLAR_URL_BASE` is referenced from
`src/paper.rs` and `src/request.rs` but its defining line (in the crate
root) is not among the provided sources.
-/

/-- Modelled from the spec: the base endpoint constant `GOOGLESCHOLAR_URL_BASE`
is referenced but not defined in the provided sources; the `Paper::new`
doctest in src/paper.rs pins its value, asserting
`citation_url = format!("https://scholar.google.com/scholar?cites={}", 42)`. -/
def GOOGLESCHOLAR_URL_BASE : List Char := chars "https://scholar.google.com/scholar"

structure Paper where
  title : List Char
  link : Option (List Char)
  cluster_id : Nat
  year : Option Nat
  citation_count : Option Nat
  citers : Option (List Paper)
  citation_url : List Char

/-- `Paper::cluster_id_to_citation_url` (src/paper.rs:73). -/
def cluster_id_to_citation_url (id : Nat) : List Char :=
  GOOGLESCHOLAR_URL_BASE ++ chars "?cites=" ++ natToDecChars id

/-- `Paper::new` (src/paper.rs:59): `citation_url` derived from `cluster_id`;
`link`, `year`, `citation_count`, `citers` left absent. -/
def Paper.new (title : List Char) (cluster_id : Nat) : Paper :=
  { title := title
    link := none
    cluster_id := cluster_id
    year := none
    citation_count := none
    citers := none
    citation_url := cluster_id_to_citation_url cluster_id }

/-!
## The `select` crate's document model

`Html` is a parsed HTML node: an element with tag name, attributes and
children, or a text node.  A `Doc` is the forest of root nodes of a parsed
`Document`; iteration order everywhere is document (preorder) order, as in
the `select` crate's node list.
-/

inductive Html where
  | elem (name : List Char) (attrs : List (List Char × List Char)) (children : List Html)
  | text (s : List Char)

def Doc := List Html

/-- First attribute value for `key`, as `Node::attr`. Text nodes have none. -/
def lookupAttr : List (List Char × List Char) → List Char → Option (List Char)
  | [], _ => none
  | (k, v) :: rest, key => if k == key then some v else lookupAttr rest key

/-- `Node::attr` on the model. -/
def Html.attr : Html → List Char → Option (List Char)
  | .elem _ attrs _, key => lookupAttr attrs key
  | .text _, _ => none

/-- Direct children of a node. -/
def Html.childNodes : Html → List Html
  | .elem _ _ cs => cs
  | .text _ => []

/-- Whitespace-split of a `class` attribute value, as the `select` crate's
`Class` predicate performs it (empty pieces dropped). -/
def splitClassesAux : List Char → List Char → List (List Char)
  | [], acc => if acc.isEmpty then [] else [acc.reverse]
  | c :: cs, acc =>
    if c == ' ' then
      if acc.isEmpty then splitClassesAux cs [] else acc.reverse :: splitClassesAux cs []
    else splitClassesAux cs (c :: acc)

def splitClasses (v : List Char) : List (List Char) := splitClassesAux v []

/-- `Class(cls)` predicate on an attribute list. -/
def attrsHaveClass (attrs : List (List Char × List Char)) (cls : List Char) : Bool :=
  match lookupAttr attrs (chars "class") with
  | none => false
  | some v => (splitClasses v).any (· == cls)

/-- `Class(cls)` predicate on a node. -/
def Html.hasClass : Html → List Char → Bool
  | .elem _ attrs _, cls => attrsHaveClass attrs cls
  | .text _, _ => false

/-- `Attr("id", v)` predicate on a node. -/
def Html.hasIdAttr (n : Html) (v : List Char) : Bool :=
  n.attr (chars "id") == some v

/- Concatenated text of a node (`Node::text`): a text node's own content, or
the concatenation of all descendant text, in document order. -/
mutual
def textContent : Html → List Char
  | .text s => s
  | .elem _ _ cs => textContentList cs
def textContentList : List Html → List Char
  | [] => []
  | c :: cs => textContent c ++ textContentList cs
end

/- All descendants of a node in preorder (document order), excluding the
node itself, as iterated by `Node::find`. -/
mutual
def descendants : Html → List Html
  | .text _ => []
  | .elem _ _ cs => descendantsList cs
def descendantsList : List Html → List Html
  | [] => []
  | c :: cs => c :: (descendants c ++ descendantsList cs)
end

/-!
## `src/scrape.rs`: combinator walkers

Each composite `select` predicate used by the source is translated into a
preorder walk over the tree.  Candidates of `node.find(..)` are the proper
descendants of the node; `Child(A, B)` / `Descendant(A, B)` conditions on
parents and ancestors are carried as flags down the walk, so the collected
lists are exactly the matching nodes in document order.
-/

/- Walker for `Class("gs_rt").child(Name("a"))` under `node.find`:
collects descendant `a` elements whose parent has class `gs_rt`.
`pIsRt` says whether the current node's parent has that class. -/
mutual
def rtAnchors (pIsRt : Bool) : Html → List Html
  | .text _ => []
  | .elem nm attrs cs =>
    (if pIsRt && nm == chars "a" then [.elem nm attrs cs] else [])
      ++ rtAnchorsList (attrsHaveClass attrs (chars "gs_rt")) cs
def rtAnchorsList (pIsRt : Bool) : List Html → List Html
  | [] => []
  | c :: cs => rtAnchors pIsRt c ++ rtAnchorsList pIsRt cs
end

/-- Entry point over the proper descendants of `n` (the parent of `n`'s own
children is `n` itself). -/
def rtAnchorsOf (n : Html) : List Html :=
  match n with
  | .elem _ attrs cs => rtAnchorsList (attrsHaveClass attrs (chars "gs_rt")) cs
  | .text _ => []

/- Walker for `node.find(Class("gs_rt")).into_selection().children()`:
the selection holds the proper descendants of `n` with class `gs_rt`; its
`children()` are the nodes whose parent lies in the selection, in document
order.  `pInSel` says whether the current node's parent is in the selection. -/
mutual
def rtChildren (pInSel : Bool) : Html → List Html
  | .text s => if pInSel then [.text s] else []
  | .elem nm attrs cs =>
    (if pInSel then [.elem nm attrs cs] else [])
      ++ rtChildrenList (attrsHaveClass attrs (chars "gs_rt")) cs
def rtChildrenList (pInSel : Bool) : List Html → List Html
  | [] => []
  | c :: cs => rtChildren pInSel c ++ rtChildrenList pInSel cs
end

/-- Entry point: `n` itself is not in the selection (`find` excludes self),
so its direct children start with flag `false`. -/
def rtChildrenOf (n : Html) : List Html :=
  match n with
  | .elem _ _ cs => rtChildrenList false cs
  | .text _ => []

/- Walker for `Class("gs_a").descendant(Text)` under `node.find`: text-node
payloads having an ancestor (the searched node included) with class `gs_a`. -/
mutual
def gsaTexts (inGsA : Bool) : Html → List (List Char)
  | .text s => if inGsA then [s] else []
  | .elem _ attrs cs => gsaTextsList (inGsA || attrsHaveClass attrs (chars "gs_a")) cs
def gsaTextsList (inGsA : Bool) : List Html → List (List Char)
  | [] => []
  | c :: cs => gsaTexts inGsA c ++ gsaTextsList inGsA cs
end

def gsaTextsOf (n : Html) : List (List Char) :=
  match n with
  | .elem _ attrs cs => gsaTextsList (attrsHaveClass attrs (chars "gs_a")) cs
  | .text _ => []

/- Walker for `Attr("id", "gs_res_ccl_mid").descendant(Class("gs_ri"))` over a
whole document: nodes of class `gs_ri` having a strict ancestor with
id `gs_res_ccl_mid`.  `under` says whether such an ancestor has been passed. -/
mutual
def riNodes (under : Bool) : Html → List Html
  | .text _ => []
  | .elem nm attrs cs =>
    (if under && attrsHaveClass attrs (chars "gs_ri") then [.elem nm attrs cs] else [])
      ++ riNodesList (under || lookupAttr attrs (chars "id") == some (chars "gs_res_ccl_mid")) cs
def riNodesList (under : Bool) : List Html → List Html
  | [] => []
  | c :: cs => riNodes under c ++ riNodesList under cs
end

/-- Result blocks of a document, in document order. -/
def riNodesDoc (doc : Doc) : List Html := riNodesList false doc

/- Walker for `Attr("id", "gs_rt_hdr").child(Name("h2")).child(Name("a").or(Text))`
over a whole document.  Visiting a node, `pHasId` says whether its parent has
id `gs_rt_hdr`, and `pChain` whether its parent is an `h2` whose own parent
has that id; a node is a candidate when `pChain` holds and it is a text node
or an `a` element. -/
mutual
def hdrCand (pHasId pChain : Bool) : Html → List Html
  | .text s => if pChain then [.text s] else []
  | .elem nm attrs cs =>
    (if pChain && nm == chars "a" then [.elem nm attrs cs] else [])
      ++ hdrCandList (lookupAttr attrs (chars "id") == some (chars "gs_rt_hdr"))
          (nm == chars "h2" && pHasId) cs
def hdrCandList (pHasId pChain : Bool) : List Html → List Html
  | [] => []
  | c :: cs => hdrCand pHasId pChain c ++ hdrCandList pHasId pChain cs
end

def hdrCandDoc (doc : Doc) : List Html := hdrCandList false false doc

/-!
## `src/scrape.rs`: extraction functions
-/

structure ArticleTitle where
  title : List Char
  link : Option (List Char)

structure ArticleHeader where
  year : Option Nat

structure ArticleFooter where
  cluster_id : Nat
  citation_count : Nat

/-- Keep nodes that are not `span` elements (text nodes, having no name, are
kept), as the variant-2 filter of `scrape_article_title`. -/
def notSpan (m : Html) : Bool :=
  match m with
  | .text _ => true
  | .elem nm _ _ => nm != chars "span"

/-- Both-ends whitespace trim, as `str::trim`. -/
def trimWs (l : List Char) : List Char :=
  ((l.dropWhile Char.isWhitespace).reverse.dropWhile Char.isWhitespace).reverse

/-- Text concatenation of a node list (`map(|n| n.text()).collect::<String>()`). -/
def joinTexts : List Html → List Char
  | [] => []
  | m :: ms => textContent m ++ joinTexts ms

/-- `scrape_article_title` (src/scrape.rs:168): variant 1 takes the first
descendant `a` under a `gs_rt` parent (text and `href`); variant 2
concatenates the text of the `gs_rt` selection's non-`span` children and
trims it. -/
def scrape_article_title (node : Html) : ArticleTitle :=
  match (rtAnchorsOf node).head? with
  | some a => { title := textContent a, link := a.attr (chars "href") }
  | none =>
    { title := trimWs (joinTexts ((rtChildrenOf node).filter notSpan)), link := none }

/-- Year token `(18|19|20)(\d{2})` at the head of the list. -/
def yearAt : List Char → Option Nat
  | c0 :: c1 :: c2 :: c3 :: _ =>
    if ((c0 == '1' && (c1 == '8' || c1 == '9')) || (c0 == '2' && c1 == '0'))
        && c2.isDigit && c3.isDigit then
      some ((((c0.toNat - 48) * 10 + (c1.toNat - 48)) * 100)
        + (c2.toNat - 48) * 10 + (c3.toNat - 48))
    else none
  | _ => none

/-- Pattern `\s-\s` at the head of the list. -/
def dashAtHead : List Char → Bool
  | a :: b :: c :: _ => a.isWhitespace && b == '-' && c.isWhitespace
  | _ => false

/-- All year tokens allowed by `.*\s-\s.*((18|19|20)(\d{2}))(\s-\s.+)?`, in
positional order: a year token is valid when some `\s-\s` occurrence ends
strictly before it.  `en` says a dash pattern has ended at or before the
current position; `dpm2`/`dpm1` record whether a dash pattern started two/one
positions back (it enables positions three past its start). -/
def yearScan (en dpm2 dpm1 : Bool) : List Char → List Nat
  | [] => []
  | c :: rest =>
    (match yearAt (c :: rest) with
     | some y => if en then [y] else []
     | none => [])
      ++ yearScan (en || dpm2) dpm1 (dashAtHead (c :: rest)) rest

/-- `parse_year` (src/scrape.rs:266): the regex's greedy `.*` prefixes capture
the last valid year token; no match is `BadHtml`.  (Group 1 is four digits,
at most 2099, so the `u32` parse `.unwrap()` cannot panic.) -/
def parse_year (text : List Char) : Except ScrapeErr Nat :=
  match (yearScan false false false text).getLast? with
  | some y => .ok y
  | none => .error .badHtml

/-- `scrape_article_header` (src/scrape.rs:228): first `gs_a` text descendant
whose text parses as a year; absence leaves `year` unset.  The inner
`parse_year(..).unwrap()` cannot panic since the node passed the
`is_ok` filter; the unreachable branch yields `none`. -/
def scrape_article_header (node : Html) : ArticleHeader :=
  match (gsaTextsOf node).find? (fun s => (parse_year s).isOk) with
  | none => { year := none }
  | some s =>
    match parse_year s with
    | .ok y => { year := some y }
    | .error _ => { year := none }

/-- Href-based filter of `scrape_article_footer`: the cluster id of a node's
`href`, when the link carries a parseable `cluster=`/`cites=` parameter. -/
def hrefClusterId (m : Html) : Option Nat :=
  match m.attr (chars "href") with
  | some u => (parse_cluster_id u).toOption
  | none => none

/-- First descendant with class `gs_fl` (`node.find(Class("gs_fl")).nth(0)`). -/
def firstGsFl (node : Html) : Option Html :=
  ((descendants node).filter (fun m => m.hasClass (chars "gs_fl"))).head?

/-- `scrape_article_footer` (src/scrape.rs:282): take the first `gs_fl`
descendant's children, keep the first one whose `href` parses to a cluster
id, and read the id from the `href` and the citation count from the link
text.  Missing footer or missing id-link is `BadHtml`.  The Rust code then
re-parses the `href` with `.unwrap()`; those unwraps cannot fail because the
node passed the filter, and the unreachable fallbacks return `BadHtml`. -/
def scrape_article_footer (node : Html) : Except ScrapeErr ArticleFooter :=
  match firstGsFl node with
  | none => .error .badHtml
  | some footer =>
    match footer.childNodes.find? (fun m => (hrefClusterId m).isSome) with
    | none => .error .badHtml
    | some citation_node =>
      match hrefClusterId citation_node with
      | none => .error .badHtml
      | some cluster_id =>
        match parse_citation_count (textContent citation_node) with
        | .error e => .error e
        | .ok citation_count =>
          .ok { cluster_id := cluster_id, citation_count := citation_count }

/-- `scrape_paper_one` (src/scrape.rs:152): title/link and year are total;
the footer is propagated with `?`, so its failure fails the block; on
success `citation_count` is always set (`Some`). -/
def scrape_paper_one (node : Html) : Except ScrapeErr Paper :=
  let at_ := scrape_article_title node
  let ah := scrape_article_header node
  match scrape_article_footer node with
  | .error e => .error e
  | .ok af =>
    .ok { Paper.new at_.title af.cluster_id with
          link := at_.link
          year := ah.year
          citation_count := some af.citation_count }

/-- The `for`-loop of `scrape_papers` with `?`: stop at the first failing
block, otherwise collect every block's paper in order. -/
def scrapePapersList : List Html → Except ScrapeErr (List Paper)
  | [] => .ok []
  | n :: ns =>
    match scrape_paper_one n with
    | .error e => .error e
    | .ok p =>
      match scrapePapersList ns with
      | .error e => .error e
      | .ok ps => .ok (p :: ps)

/-- `PapersDocument::scrape_papers` (src/scrape.rs:18). -/
def scrape_papers (doc : Doc) : Except ScrapeErr (List Paper) :=
  scrapePapersList (riNodesDoc doc)

/-- `CitationDocument::scrape_target_paper` (src/scrape.rs:98): first
`gs_rt_hdr > h2 > (a|text)` node; its text is the title and its `href`
(absent on a text node: `BadHtml`) yields the cluster id. -/
def scrape_target_paper (doc : Doc) : Except ScrapeErr Paper :=
  match (hdrCandDoc doc).head? with
  | none => .error .resultNotFound
  | some tn =>
    let title := textContent tn
    match tn.attr (chars "href") with
    | none => .error .badHtml
    | some id_url =>
      match parse_cluster_id id_url with
      | .error e => .error e
      | .ok cluster_id => .ok (Paper.new title cluster_id)

/-- `CitationDocument::scrape_target_paper_with_citers` (src/scrape.rs:89). -/
def scrape_target_paper_with_citers (doc : Doc) : Except ScrapeErr Paper :=
  match scrape_target_paper doc with
  | .error e => .error e
  | .ok target =>
    match scrape_papers doc with
    | .error e => .error e
    | .ok citers => .ok { target with citers := some citers }

/-!
## `src/request.rs`: queries and URL building

`reqwest::Url` (the `url` crate, an external collaborator) is modelled by
`UrlT`: the part before the first `?` (up to the fragment) and an optional
query string.  `urlParse` models `Url::parse`'s acceptance of absolute URLs
of any scheme (an RFC-3986 scheme — a letter followed by letters, digits,
`+`, `-`, `.` — then `:`; the scheme is case-insensitive), with the special
schemes `http`, `https`, `ftp`, `ws`, `wss` additionally needing a nonempty
host, and `query()` being the text between the first `?` and any `#`
(present, possibly empty, exactly when a `?` occurs before the fragment).
Strings without a scheme fail, as the crate's relative-URL error.  The
crate's serialisation normalisations (scheme/host lowercasing, path dot
removal, percent-encoding of `set_query` values) and finer host/port
validation are not modelled: the theorems below never compare `UrlT.base`
against concrete crate output, they only thread it through.
-/

structure UrlT where
  base : List Char
  query : Option (List Char)
deriving DecidableEq, Repr

/-- Split a URL's tail at the first `?` into base part and query string. -/
def splitQ : List Char → List Char × Option (List Char)
  | [] => ([], none)
  | c :: rest =>
    if c == '?' then ([], some rest)
    else
      let (b, q) := splitQ rest
      (c :: b, q)

/-- Characters allowed in an RFC-3986 scheme after the initial letter. -/
def isSchemeChar (c : Char) : Bool :=
  c.isAlphanum || c == '+' || c == '-' || c == '.'

/-- Scan the remainder of a scheme up to `:`; yields the scheme seen so far
(reversed in `acc`) and the text after the colon. -/
def schemeSplitGo (acc : List Char) : List Char → Option (List Char × List Char)
  | [] => none
  | c :: rest =>
    if c == ':' then some (acc.reverse, rest)
    else if isSchemeChar c then schemeSplitGo (c :: acc) rest
    else none

/-- Split an absolute URL into its scheme and the text after `:`; fails when
the string does not begin with a valid scheme (a relative URL). -/
def schemeSplit : List Char → Option (List Char × List Char)
  | [] => none
  | c :: rest => if c.isAlpha then schemeSplitGo [c] rest else none

/-- ASCII lowercasing, for the crate's case-insensitive scheme handling. -/
def lowerAscii (c : Char) : Char :=
  if 'A' ≤ c && c ≤ 'Z' then Char.ofNat (c.toNat + 32) else c

/-- The special schemes for which the url crate requires a nonempty host. -/
def specialScheme (sc : List Char) : Bool :=
  sc == chars "http" || sc == chars "https" || sc == chars "ftp"
    || sc == chars "ws" || sc == chars "wss"

/-- Model of `Url::parse` (see the section comment for its scope): any-scheme
absolute URLs parse, special schemes additionally need a nonempty host, and
the query is the (possibly empty) text between the first `?` and the
fragment. -/
def urlParse (s : List Char) : Option UrlT :=
  match schemeSplit s with
  | none => none
  | some (sc, rest) =>
    let parts := splitQ (s.takeWhile (· != '#'))
    if specialScheme (sc.map lowerAscii) then
      match (rest.dropWhile (· == '/')).head? with
      | none => none
      | some c => if c == '?' || c == '#' then none else some { base := parts.1, query := parts.2 }
    else some { base := parts.1, query := parts.2 }

/-- Request-level errors: `InvalidQuery` from query validation, plus the
foreign kinds a `send_request` can surface. -/
inductive RequestErr where
  | invalidQuery
deriving DecidableEq, Repr

def DEFAULT_MAX_RESULT_COUNT : Nat := 5
def MAX_PAGE_RESULTS : Nat := 10

/-- `SearchQuery` (src/request.rs:42). -/
structure SearchQuery where
  max_result_count : Nat
  words : Option (List Char)
  authors : Option (List Char)
  title_only : Bool

/-- `SearchQuery::default` (src/request.rs:79). -/
def SearchQuery.default : SearchQuery :=
  { max_result_count := DEFAULT_MAX_RESULT_COUNT
    words := none
    authors := none
    title_only := false }

/-- `SearchQuery::set_count` (src/request.rs:147): rounded down to 10. -/
def SearchQuery.set_count (q : SearchQuery) (c : Nat) : SearchQuery :=
  { q with max_result_count := min c MAX_PAGE_RESULTS }

/-- `SearchQuery::set_words` (src/request.rs:172). -/
def SearchQuery.set_words (q : SearchQuery) (w : List Char) : SearchQuery :=
  { q with words := some w }

/-- `SearchQuery::append_words` (src/request.rs:194). -/
def SearchQuery.append_words (q : SearchQuery) (w : List Char) : SearchQuery :=
  match q.words with
  | some old => { q with words := some (old ++ [' '] ++ w) }
  | none => { q with words := some w }

/-- `SearchQuery::set_phrase` (src/request.rs:223): the phrase is quoted and
set as the words. -/
def SearchQuery.set_phrase (q : SearchQuery) (p : List Char) : SearchQuery :=
  q.set_words (['"'] ++ p ++ ['"'])

/-- `SearchQuery::append_phrase` (src/request.rs:244). -/
def SearchQuery.append_phrase (q : SearchQuery) (p : List Char) : SearchQuery :=
  q.append_words (['"'] ++ p ++ ['"'])

/-- `SearchQuery::set_authors` (src/request.rs:264). -/
def SearchQuery.set_authors (q : SearchQuery) (a : List Char) : SearchQuery :=
  { q with authors := some a }

/-- `SearchQuery::append_authors` (src/request.rs:285). -/
def SearchQuery.append_authors (q : SearchQuery) (a : List Char) : SearchQuery :=
  match q.authors with
  | some old => { q with authors := some (old ++ [' '] ++ a) }
  | none => { q with authors := some a }

/-- `SearchQuery::set_title_only` (src/request.rs:321). -/
def SearchQuery.set_title_only (q : SearchQuery) (t : Bool) : SearchQuery :=
  { q with title_only := t }

/-- `SearchQuery::is_valid` (src/request.rs:329). -/
def SearchQuery.is_valid (q : SearchQuery) : Bool :=
  q.words.isSome || q.authors.isSome

/-- The `format!` query string of `SearchQuery::to_url` (src/request.rs:106),
with `option_stringify!` as `getD []`. -/
def searchQueryString (q : SearchQuery) : List Char :=
  chars "as_q=" ++ q.words.getD []
    ++ chars "&as_epq=&as_eq=&as_occt="
    ++ (if q.title_only then chars "title" else chars "any")
    ++ chars "&as_sauthors=" ++ q.authors.getD []
    ++ chars "&as_publication=&as_ylo=&as_yhi=&as_vis=0&btnG="
    ++ chars "&hl=en&num=" ++ natToDecChars q.max_result_count
    ++ chars "&as_sdt=0%2C5"

/-- `SearchQuery::to_url` (src/request.rs:90): `InvalidQuery` unless valid;
otherwise the base URL with the formatted query set on it. -/
def SearchQuery.to_url (q : SearchQuery) : Except RequestErr UrlT :=
  if q.is_valid then
    .ok { base := GOOGLESCHOLAR_URL_BASE, query := some (searchQueryString q) }
  else .error .invalidQuery

/-- `CitationQuery` (src/request.rs:335). -/
structure CitationQuery where
  citation_url : List Char
  max_result_count : Nat

/-- `CitationQuery::new` (src/request.rs:368). -/
def CitationQuery.new (citation_url : List Char) : CitationQuery :=
  { citation_url := citation_url, max_result_count := DEFAULT_MAX_RESULT_COUNT }

/-- `CitationQuery::set_count` (src/request.rs:390). -/
def CitationQuery.set_count (q : CitationQuery) (c : Nat) : CitationQuery :=
  { q with max_result_count := min c MAX_PAGE_RESULTS }

/-- `CitationQuery::to_url` (src/request.rs:352):
`Url::parse(&self.citation_url).unwrap()` and `url.query().unwrap()` panic
when the citation URL does not parse or carries no query string; `none`
models those panics.  Otherwise `&hl=en&num=<count>` is appended to the
existing query. -/
def CitationQuery.to_url (q : CitationQuery) : Option UrlT :=
  match urlParse q.citation_url with
  | none => none
  | some u =>
    match u.query with
    | none => none
    | some qs =>
      some { base := u.base
             query := some (qs ++ chars "&hl=en&num=" ++ natToDecChars q.max_result_count) }

/-- `ClusterQuery` (src/request.rs:401). -/
structure ClusterQuery where
  cluster_id : Nat

/-- `ClusterQuery::new` (src/request.rs:425). -/
def ClusterQuery.new (cluster_id : Nat) : ClusterQuery :=
  { cluster_id := cluster_id }

/-- `ClusterQuery::to_url` (src/request.rs:416): parses the constant base URL
(which cannot fail) and sets `cluster=<id>`; always `Ok`. -/
def ClusterQuery.to_url (q : ClusterQuery) : Except RequestErr UrlT :=
  .ok { base := GOOGLESCHOLAR_URL_BASE
        query := some (chars "cluster=" ++ natToDecChars q.cluster_id) }

/-!
## `src/bin/`: config, blocked detection and the recursive crawler

`Config` is src/bin/config.rs (output format and verbosity do not affect the
crawl results and are carried only for fidelity).  The binary's error type
adds `Blocked` to the library errors; `network` stands for the foreign
`reqwest` transport error and `panicked` for a `to_url` panic.
-/

inductive OutputFormat where
  | humanReadable
  | json
deriving DecidableEq, Repr

structure Config where
  max_result_count : Option Nat
  recursive_depth : Nat
  output_format : OutputFormat
  verbose : Bool

inductive BinErr where
  | blocked
  | scholar (e : ScrapeErr)
  | network
  | panicked
deriving DecidableEq, Repr

/- Helper walk for `is_blocked` below: marker presence anywhere in a tree. -/
mutual
def blockedMarker : Html → Bool
  | .text _ => false
  | .elem _ attrs cs =>
    lookupAttr attrs (chars "id") == some (chars "gs_captcha_ccl")
      || blockedMarkerList cs
def blockedMarkerList : List Html → Bool
  | [] => false
  | c :: cs => blockedMarker c || blockedMarkerList cs
end

/-- Modelled from the spec: `is_blocked` is called by `exit_blocked!` in
src/bin/scrape.rs but its definition is not among the provided sources.  The
spec describes it as a structural check for a known anti-automation
interstitial marker; the model checks for a node carrying the interstitial
id marker anywhere in the document. -/
def is_blocked (doc : Doc) : Bool := blockedMarkerList doc

/-- The `CitationQuery` built by `recursive_search` (src/bin/scrape.rs:122):
`CitationQuery::new` on the paper's citation URL, with `set_count` applied
when the config carries a count. -/
def recursive_query (paper : Paper) (cfg : Config) : CitationQuery :=
  let q := CitationQuery.new paper.citation_url
  match cfg.max_result_count with
  | some count => q.set_count count
  | none => q

/-- `send_request` (src/request.rs:22) specialised to the citation query of
the crawler, against an abstract fetcher `F` standing for the HTTP transport
plus `CitationDocument::from` (HTML parsing): `query.to_url()?` first (its
panic surfaces as `panicked`), then the fetch.  Transport failures are
whatever error `F` returns (`network` for the plain reqwest error). -/
def send_request_model (F : UrlT → Except BinErr Doc) (q : CitationQuery) :
    Except BinErr Doc :=
  match q.to_url with
  | none => .error .panicked
  | some url => F url

/-- The recursion of `recursive_search` (src/bin/scrape.rs:109), structural on
the remaining depth with the constant parts of the config (`mrc` =
`cfg.max_result_count`) threaded unchanged, exactly as the code's
`cfg.clone()` with a decremented `recursive_depth` does.  A failing child
branch is discarded by `flat_map` (`Except.toOption` + `filterMap`). -/
def recursive_search_go (F : UrlT → Except BinErr Doc) (mrc : Option Nat) :
    Nat → Paper → Except BinErr Paper
  | 0, paper => .ok paper
  | d + 1, paper =>
    let query := recursive_query paper
      { max_result_count := mrc, recursive_depth := d + 1
        output_format := .humanReadable, verbose := false }
    match send_request_model F query with
    | .error e => .error e
    | .ok doc =>
      if is_blocked doc then .error .blocked
      else
        match scrape_target_paper_with_citers doc with
        | .error e => .error (.scholar e)
        | .ok np =>
          match np.citers with
          | none => .error .panicked
          | some cs =>
            .ok { np with
                  citers := some (cs.filterMap fun c =>
                    (recursive_search_go F mrc d c).toOption) }

/-- `recursive_search` (src/bin/scrape.rs:109).  Depth 0 returns the paper
unchanged; otherwise fetch the citation page, fail on `Blocked`, scrape the
target with its citers and expand each citer at depth - 1, dropping failing
branches.  (`recursive_query` only reads `max_result_count` from the config,
so threading `mrc` is exactly the code's cloned config.) -/
def recursive_search (F : UrlT → Except BinErr Doc) (paper : Paper) (cfg : Config) :
    Except BinErr Paper :=
  recursive_search_go F cfg.max_result_count cfg.recursive_depth paper

/- Nesting depth of the expanded `citers` tree: 0 for an unexpanded node
(`citers` absent), one more than the children's maximum otherwise. -/
mutual
def citersDepth : Paper → Nat
  | ⟨_, _, _, _, _, none, _⟩ => 0
  | ⟨_, _, _, _, _, some l, _⟩ => 1 + citersDepthList l
def citersDepthList : List Paper → Nat
  | [] => 0
  | p :: ps => max (citersDepth p) (citersDepthList ps)
end

/-!
## Concrete fixtures

Small documents in the page shapes documented in src/scrape.rs, used by the
closed witness and counterexample theorems below.
-/

/-- A "Related articles" link: an anchor without a `cluster=`/`cites=`
parameter, sitting before the citation link in each footer. -/
def relatedLink : Html :=
  .elem (chars "a") [(chars "href", chars "/scholar?q=related")]
    [.text (chars "Related articles")]

/-- The citation-count link of a footer. -/
def citesLink (cites citedBy : String) : Html :=
  .elem (chars "a") [(chars "href", chars cites)] [.text (chars citedBy)]

/-- A `gs_fl` footer: a "Related articles" link, then the citation link. -/
def mkFooter (cites citedBy : String) : Html :=
  .elem (chars "div") [(chars "class", chars "gs_fl")]
    [relatedLink, citesLink cites citedBy]

/-- A result block in the documented shape: linked title (`gs_rt` with an
anchor), and a `gs_fl` footer whose first link is a "Related articles" link
without a `cluster=`/`cites=` parameter, followed by the citation link. -/
def mkBlock (title link cites citedBy : String) : Html :=
  .elem (chars "div") [(chars "class", chars "gs_ri")]
    [ .elem (chars "h3") [(chars "class", chars "gs_rt")]
        [ .elem (chars "a") [(chars "href", chars link)] [.text (chars title)] ]
    , mkFooter cites citedBy ]

/-- A citation-list page: `gs_rt_hdr > h2 > a` header naming the target paper
and the `gs_res_ccl_mid` container with the citer blocks. -/
def mkCitationDoc (title cluster : String) (blocks : List Html) : Doc :=
  [ .elem (chars "div") [(chars "id", chars "gs_rt_hdr")]
      [ .elem (chars "h2") []
          [ .elem (chars "a") [(chars "href", chars ("/scholar?cluster=" ++ cluster))]
              [.text (chars title)] ] ]
  , .elem (chars "div") [(chars "id", chars "gs_res_ccl_mid")] blocks ]

/-- An anti-automation interstitial page (carries the blocked marker). -/
def blockedDoc : Doc :=
  [ .elem (chars "div") [(chars "id", chars "gs_captcha_ccl")] [] ]

/-- A block whose `gs_fl` footer has no link with a `cluster=`/`cites=`
parameter (no "cited by" link). -/
def badFooterBlock : Html :=
  .elem (chars "div") [(chars "class", chars "gs_ri")]
    [ .elem (chars "h3") [(chars "class", chars "gs_rt")]
        [ .elem (chars "a") [(chars "href", chars "http://x.pdf")] [.text (chars "No Cites")] ]
    , .elem (chars "div") [(chars "class", chars "gs_fl")]
        [ .elem (chars "a") [(chars "href", chars "/scholar?q=related")]
            [.text (chars "Related articles")] ] ]

/-- A well-formed block used by several witnesses. -/
def goodBlock : Html := mkBlock "Paper B" "http://b.pdf" "/scholar?cites=12" "Cited by 4"

/-- The citation page of the seed paper (cluster id 1): three citers, the
middle one (id 11) being the branch whose own fetch will be blocked. -/
def rootDoc : Doc :=
  mkCitationDoc "Seed" "1"
    [ goodBlock
    , mkBlock "Paper A" "http://a.pdf" "/scholar?cites=11" "Cited by 3"
    , mkBlock "Paper C" "http://c.pdf" "/scholar?cites=13" "Cited by 5" ]

/-- Citation page of paper 12, with one citer (id 21). -/
def docB : Doc :=
  mkCitationDoc "Paper B" "12" [mkBlock "Grand B" "http://gb.pdf" "/scholar?cites=21" "Cited by 1"]

/-- Citation page of paper 13, with one citer (id 31). -/
def docC : Doc :=
  mkCitationDoc "Paper C" "13" [mkBlock "Grand C" "http://gc.pdf" "/scholar?cites=31" "Cited by 2"]

/-- Crawler config with depth 2 and no explicit result count. -/
def cfg2 : Config :=
  { max_result_count := none, recursive_depth := 2
    output_format := .humanReadable, verbose := false }

/-- The URL the crawler requests for a paper of cluster id `i` under `cfg2`'s
default count of 5. -/
def citesUrl (i : String) : UrlT :=
  { base := GOOGLESCHOLAR_URL_BASE
    query := some (chars ("cites=" ++ i ++ "&hl=en&num=5")) }

/-- Fetcher for the depth-2 scenario of C1: the seed's page lists citers 12,
11, 13; the page of 11 is blocked; the pages of 12 and 13 succeed; anything
else is a transport error. -/
def fetchC1 (u : UrlT) : Except BinErr Doc :=
  if u = citesUrl "1" then .ok rootDoc
  else if u = citesUrl "11" then .ok blockedDoc
  else if u = citesUrl "12" then .ok docB
  else if u = citesUrl "13" then .ok docC
  else .error .network

/-- Citation page of paper 7 whose only citer is paper 7 itself: a citation
cycle. -/
def docCyc : Doc :=
  mkCitationDoc "Cyc" "7" [mkBlock "Cyc" "http://cyc.pdf" "/scholar?cites=7" "Cited by 2"]

/-- Fetcher realising the citation cycle 7 → 7. -/
def fetchCyc (u : UrlT) : Except BinErr Doc :=
  if u = citesUrl "7" then .ok docCyc else .error .network

/-- A search/citation listing whose container holds a good block and then a
block with no cited-by footer link. -/
def docMixed : Doc :=
  [ .elem (chars "div") [(chars "id", chars "gs_res_ccl_mid")]
      [goodBlock, badFooterBlock] ]

/-- The paper scraped from `goodBlock`. -/
def paperB : Paper :=
  { title := chars "Paper B", link := some (chars "http://b.pdf"), cluster_id := 12
    year := none, citation_count := some 4, citers := none
    citation_url := cluster_id_to_citation_url 12 }

/-- The paper scraped from the blocked branch's block (id 11). -/
def paperA : Paper :=
  { title := chars "Paper A", link := some (chars "http://a.pdf"), cluster_id := 11
    year := none, citation_count := some 3, citers := none
    citation_url := cluster_id_to_citation_url 11 }

/-- The paper scraped from the third block (id 13). -/
def paperC : Paper :=
  { title := chars "Paper C", link := some (chars "http://c.pdf"), cluster_id := 13
    year := none, citation_count := some 5, citers := none
    citation_url := cluster_id_to_citation_url 13 }

/-- The target paper of `rootDoc` with its scraped citers attached. -/
def seedTarget : Paper :=
  { Paper.new (chars "Seed") 1 with citers := some [paperB, paperA, paperC] }

/-- The grandchild paper on the `docB` page. -/
def grandB : Paper :=
  { title := chars "Grand B", link := some (chars "http://gb.pdf"), cluster_id := 21
    year := none, citation_count := some 1, citers := none
    citation_url := cluster_id_to_citation_url 21 }

/-- The grandchild paper on the `docC` page. -/
def grandC : Paper :=
  { title := chars "Grand C", link := some (chars "http://gc.pdf"), cluster_id := 31
    year := none, citation_count := some 2, citers := none
    citation_url := cluster_id_to_citation_url 31 }

/-- Depth-1 expansion of `paperB`: the target of its citation page with the
grandchild attached (the grandchild, expanded at depth 0, is unchanged). -/
def expandedB : Paper :=
  { Paper.new (chars "Paper B") 12 with citers := some [grandB] }

/-- Depth-1 expansion of `paperC`. -/
def expandedC : Paper :=
  { Paper.new (chars "Paper C") 13 with citers := some [grandC] }

/-- The block paper listed on the cyclic page `docCyc`. -/
def cycBlockPaper : Paper :=
  { title := chars "Cyc", link := some (chars "http://cyc.pdf"), cluster_id := 7
    year := none, citation_count := some 2, citers := none
    citation_url := cluster_id_to_citation_url 7 }

/-- The depth-2 expansion of paper 7 under the cyclic fetcher. -/
def cycResult : Paper :=
  { Paper.new (chars "Cyc") 7 with
    citers := some [{ Paper.new (chars "Cyc") 7 with citers := some [cycBlockPaper] }] }

/-- The premise of claim C9, as a decidable check: the block's footer region
(first `gs_fl` descendant) provides no link carrying a `cluster=`/`cites=`
parameter (including the case of no footer region at all). -/
def noCitedByLink (n : Html) : Bool :=
  match firstGsFl n with
  | none => true
  | some f => f.childNodes.all fun m => (hrefClusterId m).isNone

/-- Value of the `num` parameter in a query string: the digits after the
first `&num=` occurrence, up to the next `&`. -/
def numParamTail : List Char → Option (List Char)
  | [] => none
  | c :: rest =>
    if startsWithPat (chars "&num=") (c :: rest) then
      some (((c :: rest).drop 5).takeWhile (· != '&'))
    else numParamTail rest

def numParamOf (q : List Char) : Option Nat := (numParamTail q).map decimalValue

/-- The reachable-by-the-public-API relation on `SearchQuery`: everything
produced from `SearchQuery::default` by the public setters. -/
inductive SQReachable : SearchQuery → Prop where
  | dflt : SQReachable SearchQuery.default
  | set_count (q c) : SQReachable q → SQReachable (q.set_count c)
  | set_words (q w) : SQReachable q → SQReachable (q.set_words w)
  | append_words (q w) : SQReachable q → SQReachable (q.append_words w)
  | set_phrase (q p) : SQReachable q → SQReachable (q.set_phrase p)
  | append_phrase (q p) : SQReachable q → SQReachable (q.append_phrase p)
  | set_authors (q a) : SQReachable q → SQReachable (q.set_authors a)
  | append_authors (q a) : SQReachable q → SQReachable (q.append_authors a)
  | set_title_only (q t) : SQReachable q → SQReachable (q.set_title_only t)

/-- The counterexample query of claim C5: reachable, valid, count set to 0. -/
def q0 : SearchQuery := (SearchQuery.default.set_words (chars "foo")).set_count 0

/-!
## Generic lemmas
-/

theorem startsWithPat_false_of_mismatchWithin :
    ∀ (u pat v : List Char), mismatchWithin u pat = true →
      startsWithPat pat (u ++ v) = false := by
  intro u
  induction u with
  | nil => intro pat v h; cases pat <;> simp [mismatchWithin] at h
  | cons c u ih =>
    intro pat v h
    cases pat with
    | nil => simp [mismatchWithin] at h
    | cons p ps =>
      simp only [mismatchWithin, Bool.or_eq_true, bne_iff_ne] at h
      rcases h with h | h
      · simp [startsWithPat, List.cons_append, beq_eq_false_iff_ne, h]
      · simp only [List.cons_append, startsWithPat, Bool.and_eq_false_iff]
        exact Or.inr (ih ps v h)

theorem clusterIdScan_append_skip :
    ∀ (u v : List Char), allPosMismatch u (chars "cluster=") = true →
      allPosMismatch u (chars "cites=") = true →
      clusterIdScan (u ++ v) = clusterIdScan v := by
  intro u
  induction u with
  | nil => intro v _ _; rfl
  | cons c u ih =>
    intro v h1 h2
    simp only [allPosMismatch, Bool.and_eq_true] at h1 h2
    have e1 := startsWithPat_false_of_mismatchWithin (c :: u) (chars "cluster=") v h1.1
    have e2 := startsWithPat_false_of_mismatchWithin (c :: u) (chars "cites=") v h2.1
    simp only [List.cons_append] at e1 e2
    rw [List.cons_append, clusterIdScan, e1, e2]
    simpa using ih v h1.2 h2.2

theorem takeWhile_eq_self_of_all {p : Char → Bool} :
    ∀ l : List Char, (∀ c ∈ l, p c = true) → l.takeWhile p = l := by
  intro l
  induction l with
  | nil => intro _; rfl
  | cons c cs ih =>
    intro h
    rw [List.takeWhile_cons, h c (List.mem_cons_self c cs)]
    exact congrArg (c :: ·) (ih fun d hd => h d (List.mem_cons_of_mem c hd))

theorem decValAux_snoc (a : Nat) :
    ∀ (l : List Char) (c : Char),
      decValAux a (l ++ [c]) = 10 * decValAux a l + (c.toNat - 48) := by
  intro l
  induction l generalizing a with
  | nil => intro c; rfl
  | cons d ds ih =>
    intro c
    rw [List.cons_append]
    exact ih (10 * a + (d.toNat - 48)) c

theorem charOfDigit_toNat {m : Nat} (hm : m < 10) : (decDigitChar m).toNat = 48 + m := by
  interval_cases m <;> rfl

theorem charOfDigit_isDigit {m : Nat} (hm : m < 10) : (decDigitChar m).isDigit = true := by
  interval_cases m <;> rfl

theorem decCharsRec_zero : decCharsRec 0 = [] := by rw [decCharsRec]; rfl

theorem decCharsRec_succ {n : Nat} (hn : n ≠ 0) :
    decCharsRec n = decCharsRec (n / 10) ++ [decDigitChar (n % 10)] := by
  rw [decCharsRec]; simp [hn]

theorem decValAux_decCharsRec : ∀ n : Nat, decValAux 0 (decCharsRec n) = n := by
  intro n
  induction n using Nat.strong_induction_on with
  | _ n ih =>
    by_cases hn : n = 0
    · subst hn; rw [decCharsRec_zero]; rfl
    · rw [decCharsRec_succ hn, decValAux_snoc,
        ih (n / 10) (Nat.div_lt_self (Nat.pos_of_ne_zero hn) (by norm_num)),
        charOfDigit_toNat (Nat.mod_lt n (by norm_num))]
      omega

theorem decCharsRec_all_digits : ∀ n : Nat, ∀ c ∈ decCharsRec n, c.isDigit = true := by
  intro n
  induction n using Nat.strong_induction_on with
  | _ n ih =>
    by_cases hn : n = 0
    · subst hn; rw [decCharsRec_zero]; intro c hc; cases hc
    · rw [decCharsRec_succ hn]
      intro c hc
      rcases List.mem_append.mp hc with hc | hc
      · exact ih (n / 10) (Nat.div_lt_self (Nat.pos_of_ne_zero hn) (by norm_num)) c hc
      · rw [List.mem_singleton] at hc
        subst hc
        exact charOfDigit_isDigit (Nat.mod_lt n (by norm_num))

theorem toDecAux_eq : ∀ (fuel n : Nat) (acc : List Char), n ≤ fuel →
    toDecAux fuel n acc = decCharsRec n ++ acc := by
  intro fuel
  induction fuel with
  | zero =>
    intro n acc h
    have : n = 0 := Nat.le_zero.mp h
    subst this
    rw [decCharsRec_zero]; rfl
  | succ fuel ih =>
    intro n acc h
    by_cases hn : n = 0
    · subst hn; rw [decCharsRec_zero]; simp [toDecAux]
    · rw [toDecAux, if_neg hn,
        ih (n / 10) _ (by
          have := Nat.div_lt_self (Nat.pos_of_ne_zero hn) (show 1 < 10 by norm_num)
          omega),
        decCharsRec_succ hn, List.append_assoc]
      rfl

theorem natToDecChars_eq (n : Nat) (hn : n ≠ 0) : natToDecChars n = decCharsRec n := by
  rw [natToDecChars, if_neg hn, toDecAux_eq n n [] (Nat.le_refl n), List.append_nil]

theorem decimalValue_natToDecChars (n : Nat) : decimalValue (natToDecChars n) = n := by
  by_cases hn : n = 0
  · subst hn; rfl
  · rw [natToDecChars_eq n hn]; exact decValAux_decCharsRec n

theorem natToDecChars_all_digits (n : Nat) : ∀ c ∈ natToDecChars n, c.isDigit = true := by
  by_cases hn : n = 0
  · subst hn
    intro c hc
    rw [show natToDecChars 0 = ['0'] from rfl, List.mem_singleton] at hc
    subst hc; rfl
  · rw [natToDecChars_eq n hn]; exact decCharsRec_all_digits n

theorem natToDecChars_ne_nil (n : Nat) : natToDecChars n ≠ [] := by
  by_cases hn : n = 0
  · subst hn; simp [natToDecChars]
  · rw [natToDecChars_eq n hn, decCharsRec_succ hn]; simp

theorem clusterIdScan_at_cites (v : List Char) :
    clusterIdScan ('c' :: 'i' :: 't' :: 'e' :: 's' :: '=' :: v) =
      if (v.takeWhile Char.isDigit).isEmpty then
        clusterIdScan ('i' :: 't' :: 'e' :: 's' :: '=' :: v)
      else some (v.takeWhile Char.isDigit) := rfl

theorem parse_cluster_id_citation_url (D : List Char) (hne : D ≠ [])
    (hdig : ∀ c ∈ D, c.isDigit = true) :
    clusterIdScan (GOOGLESCHOLAR_URL_BASE ++ chars "?cites=" ++ D) = some D := by
  have hsplit : GOOGLESCHOLAR_URL_BASE ++ chars "?cites=" ++ D =
      chars "https://scholar.google.com/scholar?" ++
        ('c' :: 'i' :: 't' :: 'e' :: 's' :: '=' :: D) := by
    rw [List.append_assoc]
    rfl
  rw [hsplit,
    clusterIdScan_append_skip (chars "https://scholar.google.com/scholar?")
      ('c' :: 'i' :: 't' :: 'e' :: 's' :: '=' :: D) (by decide) (by decide),
    clusterIdScan_at_cites, takeWhile_eq_self_of_all D hdig]
  simp [hne]

/-!
## Claim C4
-/

/-- C4: for every 64-bit id `x` and every title `t`, the cluster id parses
back out of `Paper::new(t, x).citation_url` exactly:
`parse_cluster_id (Paper::new(t, x).citation_url) = Ok x`. -/
theorem parse_cluster_id_roundtrip (t : List Char) (x : Nat) (hx : x < 2 ^ 64) :
    parse_cluster_id (Paper.new t x).citation_url = .ok x := by
  have hscan : clusterIdScan (Paper.new t x).citation_url = some (natToDecChars x) := by
    have : (Paper.new t x).citation_url =
        GOOGLESCHOLAR_URL_BASE ++ chars "?cites=" ++ natToDecChars x := rfl
    rw [this]
    exact parse_cluster_id_citation_url (natToDecChars x) (natToDecChars_ne_nil x)
      (natToDecChars_all_digits x)
  rw [parse_cluster_id, hscan]
  simp only [decimalValue_natToDecChars]
  rw [if_pos hx]

/-- Witness for C4 at `x = 42`, `t = "foo"`. -/
theorem parse_cluster_id_roundtrip_witness :
    parse_cluster_id (Paper.new (chars "foo") 42).citation_url = .ok 42 :=
  parse_cluster_id_roundtrip (chars "foo") 42 (by norm_num)

/-!
## Claim C7
-/

theorem findRun_skip_digits :
    ∀ (lead r : List Char), (∀ c ∈ lead, c.isDigit = true) →
      findRun false (lead ++ r) = findRun false r := by
  intro lead
  induction lead with
  | nil => intro r _; rfl
  | cons c cs ih =>
    intro r h
    rw [List.cons_append, findRun, if_pos (h c (List.mem_cons_self c cs))]
    exact ih r fun d hd => h d (List.mem_cons_of_mem c hd)

theorem findRun_skip_nondigits :
    ∀ (nd r : List Char) (b : Bool), nd ≠ [] → (∀ c ∈ nd, c.isDigit = false) →
      findRun b (nd ++ r) = findRun true r := by
  intro nd
  induction nd with
  | nil => intro r b h _; exact absurd rfl h
  | cons c cs ih =>
    intro r b _ h
    rw [List.cons_append, findRun, if_neg (by simp [h c (List.mem_cons_self c cs)])]
    by_cases hcs : cs = []
    · subst hcs; rfl
    · exact ih r true hcs fun d hd => h d (List.mem_cons_of_mem c hd)

theorem takeWhile_append_stop {p : Char → Bool} :
    ∀ (l1 l2 : List Char), (∀ c ∈ l1, p c = true) →
      (∀ c, l2.head? = some c → p c = false) →
      List.takeWhile p (l1 ++ l2) = l1 := by
  intro l1
  induction l1 with
  | nil =>
    intro l2 _ h2
    cases l2 with
    | nil => rfl
    | cons r rs => simp [List.takeWhile_cons, h2 r rfl]
  | cons e es ih =>
    intro l2 h1 h2
    rw [List.cons_append, List.takeWhile_cons, h1 e (List.mem_cons_self e es)]
    simpa using ih l2 (fun c hc => h1 c (List.mem_cons_of_mem e hc)) h2

theorem findRun_capture (ds rest : List Char) (hne : ds ≠ [])
    (hdig : ∀ c ∈ ds, c.isDigit = true)
    (hrest : ∀ c, rest.head? = some c → c.isDigit = false) :
    findRun true (ds ++ rest) = some ds := by
  cases ds with
  | nil => exact absurd rfl hne
  | cons d ds' =>
    rw [List.cons_append, findRun, if_pos (hdig d (List.mem_cons_self d ds'))]
    rw [takeWhile_append_stop ds' rest
      (fun c hc => hdig c (List.mem_cons_of_mem d hc)) hrest]
    rfl

theorem findRun_true_none_iff :
    ∀ s : List Char, findRun true s = none ↔ s.any Char.isDigit = false := by
  intro s
  induction s with
  | nil => simp [findRun]
  | cons c cs ih =>
    by_cases hc : c.isDigit
    · simp [findRun, hc]
    · rw [findRun, if_neg hc]
      simp only [List.any_cons, Bool.or_eq_false_iff]
      constructor
      · intro h; exact ⟨by simpa using hc, ih.mp h⟩
      · intro h; exact ih.mpr h.2

theorem findRun_false_none_iff :
    ∀ s : List Char, findRun false s = none ↔
      ¬ ∃ a c b, s = a ++ c :: b ∧ c.isDigit = false ∧ b.any Char.isDigit = true := by
  intro s
  induction s with
  | nil =>
    constructor
    · rintro _ ⟨a, c, b, habs, _, _⟩
      exact absurd habs (by simp)
    · intro _; rfl
  | cons x t ih =>
    by_cases hx : x.isDigit
    · rw [findRun, if_pos hx, if_neg Bool.false_ne_true, ih]
      constructor
      · rintro h ⟨a, c, b, heq, hc, hb⟩
        cases a with
        | nil =>
          rw [List.nil_append] at heq
          cases heq
          exact absurd hx (by simp [hc])
        | cons a0 a' =>
          rw [List.cons_append] at heq
          cases heq
          exact h ⟨a', c, b, rfl, hc, hb⟩
      · rintro h ⟨a, c, b, heq, hc, hb⟩
        exact h ⟨x :: a, c, b, by rw [heq, List.cons_append], hc, hb⟩
    · rw [findRun, if_neg hx, findRun_true_none_iff]
      constructor
      · rintro h ⟨a, c, b, heq, hc, hb⟩
        rcases List.any_eq_true.mp hb with ⟨d, hd, hdd⟩
        have hdt : d ∈ t := by
          cases a with
          | nil =>
            rw [List.nil_append] at heq
            cases heq
            exact hd
          | cons a0 a' =>
            rw [List.cons_append] at heq
            cases heq
            exact List.mem_append.mpr (Or.inr (List.mem_cons_of_mem c hd))
        have : t.any Char.isDigit = true := List.any_eq_true.mpr ⟨d, hdt, hdd⟩
        rw [this] at h
        simp at h
      · intro h
        cases hval : t.any Char.isDigit with
        | false => rfl
        | true => exact absurd ⟨[], x, t, rfl, by simpa using hx, hval⟩ h

/-- C7 (amended): `parse_citation_count` fails with `BadHtml` exactly when the
string contains no digit that is preceded (at an earlier position) by a
non-digit character — in particular a leading digit run alone does not count;
and on input of the shape `lead ++ nd ++ ds ++ rest` (leading digits, then a
nonempty non-digit stretch, then the first qualifying digit run, then a
non-digit-initial remainder) it returns that run's value (below the `u32`
bound, beyond which the Rust code panics). -/
theorem parse_citation_count_spec :
    (∀ s : List Char,
      (parse_citation_count s = .error .badHtml ↔
        ¬ ∃ a c b, s = a ++ c :: b ∧ c.isDigit = false ∧ b.any Char.isDigit = true))
    ∧
    (∀ lead nd ds rest : List Char,
      (∀ c ∈ lead, c.isDigit = true) →
      nd ≠ [] → (∀ c ∈ nd, c.isDigit = false) →
      ds ≠ [] → (∀ c ∈ ds, c.isDigit = true) →
      (∀ c, rest.head? = some c → c.isDigit = false) →
      decimalValue ds < 2 ^ 32 →
      parse_citation_count (lead ++ (nd ++ (ds ++ rest))) = .ok (decimalValue ds)) := by
  constructor
  · intro s
    rw [← findRun_false_none_iff]
    rw [parse_citation_count]
    cases hfr : findRun false s with
    | none => simp
    | some ds =>
      simp only []
      constructor
      · intro hcontra
        by_cases hlt : decimalValue ds < 2 ^ 32
        · rw [if_pos hlt] at hcontra; cases hcontra
        · rw [if_neg hlt] at hcontra; cases hcontra
      · intro hcontra; cases hcontra
  · intro lead nd ds rest hlead hndne hnd hdsne hds hrest hlt
    have hfr : findRun false (lead ++ (nd ++ (ds ++ rest))) = some ds := by
      rw [findRun_skip_digits lead _ hlead, findRun_skip_nondigits nd _ false hndne hnd,
        findRun_capture ds rest hdsne hds hrest]
    rw [parse_citation_count, hfr]
    simp only []
    rw [if_pos hlt]

/-- Counterexample to C7 as stated: `"123"` contains a run of digits, yet
`parse_citation_count` fails with `BadHtml` (the regex `[^\d]+(\d+)` demands
a non-digit before the run, so a leading digit run is never captured). -/
theorem parse_citation_count_leading_digits :
    parse_citation_count (chars "123") = .error .badHtml ∧
      (chars "123").any Char.isDigit = true :=
  ⟨rfl, by decide⟩

/-- Witness for C7: the first digit run after a non-digit is returned. -/
theorem parse_citation_count_spec_witness :
    parse_citation_count (chars "" ++ (chars "x" ++ (chars "12" ++ chars ""))) =
      .ok (decimalValue (chars "12")) :=
  parse_citation_count_spec.2 (chars "") (chars "x") (chars "12") (chars "")
    (by decide) (by decide) (by decide) (by decide) (by decide)
    (by intro c hc; cases hc) (by decide)

/-!
## Claim C6
-/

theorem find?_append_of_none {α : Type} {p : α → Bool} :
    ∀ (l1 l2 : List α), (∀ m ∈ l1, p m = false) →
      List.find? p (l1 ++ l2) = List.find? p l2 := by
  intro l1
  induction l1 with
  | nil => intro l2 _; rfl
  | cons a l ih =>
    intro l2 h
    rw [List.cons_append, List.find?_cons, h a (List.mem_cons_self a l)]
    exact ih l2 fun m hm => h m (List.mem_cons_of_mem a hm)

/-- C6: within the footer region (first `gs_fl` descendant), extraction
selects the first child whose `href` carries a parseable `cluster=`/`cites=`
id — skipping any earlier children that do not carry one — and reads the
cluster id from that link and the citation count from its text; when no
footer child carries such a parameter, the block's footer extraction fails
with `BadHtml`. -/
theorem scrape_article_footer_spec :
    (∀ (n f : Html) (pre : List Html) (link : Html) (post : List Html) (cid : Nat),
      firstGsFl n = some f →
      f.childNodes = pre ++ link :: post →
      (∀ m ∈ pre, hrefClusterId m = none) →
      hrefClusterId link = some cid →
      scrape_article_footer n =
        match parse_citation_count (textContent link) with
        | .ok cc => .ok { cluster_id := cid, citation_count := cc }
        | .error e => .error e)
    ∧
    (∀ (n f : Html), firstGsFl n = some f →
      (∀ m ∈ f.childNodes, hrefClusterId m = none) →
      scrape_article_footer n = .error .badHtml) := by
  constructor
  · intro n f pre link post cid hf hch hpre hlink
    have hfind : f.childNodes.find? (fun m => (hrefClusterId m).isSome) = some link := by
      rw [hch, find?_append_of_none pre (link :: post)
        (fun m hm => by rw [hpre m hm]; rfl)]
      rw [List.find?_cons, show (hrefClusterId link).isSome = true by rw [hlink]; rfl]
    rw [scrape_article_footer, hf]
    simp only [hfind, hlink]
    cases parse_citation_count (textContent link) <;> rfl
  · intro n f hf hnone
    have hfind : f.childNodes.find? (fun m => (hrefClusterId m).isSome) = none := by
      rw [List.find?_eq_none]
      intro m hm
      rw [hnone m hm]
      simp
    rw [scrape_article_footer, hf]
    simp only [hfind]

/-- Witness for C6 on `goodBlock`: the "Related articles" link is skipped and
the citation link (id 12, text "Cited by 4") is selected; and a footer with
only the "Related articles" link fails with `BadHtml`. -/
theorem scrape_article_footer_spec_witness :
    scrape_article_footer goodBlock = .ok { cluster_id := 12, citation_count := 4 } ∧
      scrape_article_footer badFooterBlock = .error .badHtml := by
  constructor
  · have h := scrape_article_footer_spec.1 goodBlock
      (mkFooter "/scholar?cites=12" "Cited by 4")
      [relatedLink] (citesLink "/scholar?cites=12" "Cited by 4") [] 12
      rfl rfl (by
        intro m hm
        rw [List.mem_singleton] at hm
        subst hm
        rfl) rfl
    exact h
  · exact scrape_article_footer_spec.2 badFooterBlock
      (.elem (chars "div") [(chars "class", chars "gs_fl")] [relatedLink])
      rfl (by
        intro m hm
        rw [show (Html.elem (chars "div") [(chars "class", chars "gs_fl")]
          [relatedLink]).childNodes = [relatedLink] from rfl, List.mem_singleton] at hm
        subst hm
        rfl)

/-!
## Claim C9
-/

theorem scrape_article_footer_err_of_noCitedByLink (n : Html)
    (h : noCitedByLink n = true) :
    scrape_article_footer n = .error .badHtml := by
  rw [scrape_article_footer]
  rw [noCitedByLink] at h
  cases hf : firstGsFl n with
  | none => rfl
  | some f =>
    rw [hf] at h
    simp only [] at h
    have hfind : f.childNodes.find? (fun m => (hrefClusterId m).isSome) = none := by
      rw [List.find?_eq_none]
      intro m hm
      have := List.all_eq_true.mp h m hm
      simp only [Option.isNone_iff_eq_none] at this
      rw [this]
      simp
    simp only [hfind]

/-- C9 (amended): a result block whose footer region provides no link with a
`cluster=`/`cites=` parameter (no "cited by" link, or no footer at all) makes
single-result extraction fail with `BadHtml` — it does not succeed with an
absent count; and whenever single-result extraction succeeds, the returned
paper's `citation_count` is present. -/
theorem scrape_paper_one_footer_spec :
    (∀ n : Html, noCitedByLink n = true → scrape_paper_one n = .error .badHtml)
    ∧
    (∀ (n : Html) (p : Paper), scrape_paper_one n = .ok p →
      p.citation_count.isSome = true) := by
  constructor
  · intro n h
    rw [scrape_paper_one, scrape_article_footer_err_of_noCitedByLink n h]
  · intro n p h
    rw [scrape_paper_one] at h
    cases hf : scrape_article_footer n with
    | error e => rw [hf] at h; cases h
    | ok af =>
      rw [hf] at h
      simp only [Except.ok.injEq] at h
      rw [← h]
      rfl

/-- Counterexample to C9 as stated: `badFooterBlock` has a footer but no
cited-by link in it (`noCitedByLink` holds), and single-result extraction
fails with `BadHtml` instead of succeeding with `citation_count = None`. -/
theorem scrape_paper_one_no_link_fails :
    noCitedByLink badFooterBlock = true ∧
      scrape_paper_one badFooterBlock = .error .badHtml :=
  ⟨by decide, rfl⟩

/-- Witness for C9: the failing block through the first conjunct, and a
successful block (whose `citation_count` is `some 4`) through the second. -/
theorem scrape_paper_one_footer_spec_witness :
    scrape_paper_one badFooterBlock = .error .badHtml ∧
      paperB.citation_count.isSome = true :=
  ⟨scrape_paper_one_footer_spec.1 badFooterBlock (by decide),
   scrape_paper_one_footer_spec.2 goodBlock paperB rfl⟩

/-!
## Claim C10
-/

theorem scrapePapersList_ok_iff :
    ∀ (ns : List Html) (l : List Paper),
      scrapePapersList ns = .ok l ↔
        List.Forall₂ (fun b p => scrape_paper_one b = .ok p) ns l := by
  intro ns
  induction ns with
  | nil =>
    intro l
    constructor
    · intro h
      cases l with
      | nil => exact List.Forall₂.nil
      | cons p ps => cases h
    · intro h
      cases h
      rfl
  | cons n ns ih =>
    intro l
    rw [scrapePapersList]
    cases hone : scrape_paper_one n with
    | error e =>
      simp only []
      constructor
      · intro h; cases h
      · intro h
        cases h with
        | cons hp _ => rw [hone] at hp; cases hp
    | ok p =>
      simp only []
      cases hrest : scrapePapersList ns with
      | error e =>
        simp only []
        constructor
        · intro h; cases h
        · intro h
          cases h with
          | cons _ hps =>
            have := (ih _).mpr hps
            rw [hrest] at this
            cases this
      | ok ps =>
        simp only []
        constructor
        · intro h
          cases h
          exact List.Forall₂.cons hone ((ih ps).mp hrest)
        · intro h
          cases h with
          | cons hp hps =>
            rw [hone] at hp
            cases hp
            have := (ih _).mpr hps
            rw [hrest] at this
            cases this
            rfl

theorem scrapePapersList_err :
    ∀ (pre : List Html) (b : Html) (post : List Html) (e : ScrapeErr),
      (∀ b' ∈ pre, (scrape_paper_one b').isOk = true) →
      scrape_paper_one b = .error e →
      scrapePapersList (pre ++ b :: post) = .error e := by
  intro pre
  induction pre with
  | nil =>
    intro b post e _ hb
    rw [List.nil_append, scrapePapersList, hb]
  | cons n ns ih =>
    intro b post e hpre hb
    have hok := hpre n (List.mem_cons_self n ns)
    cases hone : scrape_paper_one n with
    | error e' => rw [hone] at hok; cases hok
    | ok p =>
      rw [List.cons_append, scrapePapersList, hone,
        ih b post e (fun b' hb' => hpre b' (List.mem_cons_of_mem n hb')) hb]

/-- C10: listing extraction is all-or-nothing.  `scrape_papers` succeeds with
`l` exactly when every `gs_ri` block under the `gs_res_ccl_mid` container
extracts successfully, one paper per block in document order (`Forall₂`); and
when the blocks split as `pre ++ b :: post` with every block of `pre`
succeeding and `b` failing with `e`, the whole call returns that error (no
partial list). -/
theorem scrape_papers_all_or_nothing :
    (∀ (doc : Doc) (l : List Paper),
      scrape_papers doc = .ok l ↔
        List.Forall₂ (fun b p => scrape_paper_one b = .ok p) (riNodesDoc doc) l)
    ∧
    (∀ (doc : Doc) (pre : List Html) (b : Html) (post : List Html) (e : ScrapeErr),
      riNodesDoc doc = pre ++ b :: post →
      (∀ b' ∈ pre, (scrape_paper_one b').isOk = true) →
      scrape_paper_one b = .error e →
      scrape_papers doc = .error e) := by
  constructor
  · intro doc l
    rw [scrape_papers]
    exact scrapePapersList_ok_iff (riNodesDoc doc) l
  · intro doc pre b post e hsplit hpre hb
    rw [scrape_papers, hsplit]
    exact scrapePapersList_err pre b post e hpre hb

/-- Witness for C10 on `docMixed` (a good block followed by a block without a
cited-by link): the good prefix is extracted but the whole call fails with
the failing block's `BadHtml`, and dually the iff direction ties a successful
run to its block list. -/
theorem scrape_papers_all_or_nothing_witness :
    scrape_papers docMixed = .error .badHtml ∧
      List.Forall₂ (fun b p => scrape_paper_one b = .ok p) (riNodesDoc rootDoc)
        [paperB, paperA, paperC] := by
  constructor
  · exact scrape_papers_all_or_nothing.2 docMixed [goodBlock] badFooterBlock []
      .badHtml rfl (by
        intro b' hb'
        rw [List.mem_singleton] at hb'
        subst hb'
        rfl) rfl
  · exact (scrape_papers_all_or_nothing.1 rootDoc [paperB, paperA, paperC]).mp rfl

/-!
## Claim C2
-/

/-- C2: with remaining depth 0, `recursive_search` returns the paper exactly
as received (citers untouched) for every fetcher — the universal
quantification over the fetcher `F` expresses that no request is issued (the
result cannot depend on the transport, not even on one that always fails). -/
theorem recursive_search_depth_zero (cfg : Config) (p : Paper)
    (h : cfg.recursive_depth = 0) :
    ∀ F : UrlT → Except BinErr Doc, recursive_search F p cfg = .ok p := by
  intro F
  rw [recursive_search, h]
  rfl

/-- Witness for C2: a depth-0 config and a fetcher that always fails. -/
theorem recursive_search_depth_zero_witness :
    recursive_search (fun _ => .error .network) (Paper.new (chars "x") 5)
      { max_result_count := none, recursive_depth := 0
        output_format := .humanReadable, verbose := false } =
      .ok (Paper.new (chars "x") 5) :=
  recursive_search_depth_zero _ (Paper.new (chars "x") 5) rfl _

/-!
## Claim C3
-/

theorem citersDepth_none {p : Paper} (h : p.citers = none) : citersDepth p = 0 := by
  cases p with
  | mk t l ci y cc cit cu =>
    simp only [] at h
    subst h
    rfl

theorem citersDepth_some {p : Paper} {l : List Paper} (h : p.citers = some l) :
    citersDepth p = 1 + citersDepthList l := by
  cases p with
  | mk t lk ci y cc cit cu =>
    simp only [] at h
    subst h
    rfl

theorem citersDepthList_le {k : Nat} :
    ∀ l : List Paper, (∀ x ∈ l, citersDepth x ≤ k) → citersDepthList l ≤ k := by
  intro l
  induction l with
  | nil => intro _; exact Nat.zero_le k
  | cons p ps ih =>
    intro h
    have h1 : citersDepth p ≤ k := h p (List.mem_cons_self p ps)
    have h2 : citersDepthList ps ≤ k := ih fun x hx => h x (List.mem_cons_of_mem p hx)
    calc citersDepthList (p :: ps) = max (citersDepth p) (citersDepthList ps) := rfl
    _ ≤ k := max_le h1 h2

theorem scrape_paper_one_citers {n : Html} {p : Paper}
    (h : scrape_paper_one n = .ok p) : p.citers = none := by
  rw [scrape_paper_one] at h
  cases hf : scrape_article_footer n with
  | error e => rw [hf] at h; cases h
  | ok af =>
    rw [hf] at h
    simp only [Except.ok.injEq] at h
    rw [← h]
    rfl

theorem scrape_target_paper_with_citers_unexpanded {doc : Doc} {np : Paper}
    {cs : List Paper} (h : scrape_target_paper_with_citers doc = .ok np)
    (hcs : np.citers = some cs) : ∀ c ∈ cs, c.citers = none := by
  rw [scrape_target_paper_with_citers] at h
  cases ht : scrape_target_paper doc with
  | error e => rw [ht] at h; cases h
  | ok target =>
    rw [ht] at h
    cases hp : scrape_papers doc with
    | error e => rw [hp] at h; cases h
    | ok citers =>
      rw [hp] at h
      simp only [Except.ok.injEq] at h
      rw [← h] at hcs
      simp only [] at hcs
      cases hcs
      intro c hc
      rw [scrape_papers] at hp
      have hforall := (scrapePapersList_ok_iff (riNodesDoc doc) cs).mp hp
      rcases List.forall₂_iff_get.mp hforall with ⟨hlen, hget⟩
      rcases List.mem_iff_get.mp hc with ⟨i, hi⟩
      have := hget i (by omega) i.isLt
      rw [hi] at this
      exact scrape_paper_one_citers this

theorem recursive_search_go_depth_le :
    ∀ (d : Nat) (F : UrlT → Except BinErr Doc) (mrc : Option Nat) (p r : Paper),
      recursive_search_go F mrc d p = .ok r →
      citersDepth r ≤ max d (citersDepth p) := by
  intro d
  induction d with
  | zero =>
    intro F mrc p r h
    rw [recursive_search_go] at h
    cases h
    exact le_max_right 0 (citersDepth p)
  | succ d ih =>
    intro F mrc p r h
    rw [recursive_search_go] at h
    cases hsend : send_request_model F (recursive_query p
        { max_result_count := mrc, recursive_depth := d + 1
          output_format := .humanReadable, verbose := false }) with
    | error e => rw [hsend] at h; cases h
    | ok doc =>
      rw [hsend] at h
      simp only [] at h
      by_cases hb : is_blocked doc
      · rw [if_pos hb] at h; cases h
      · rw [if_neg hb] at h
        cases hsc : scrape_target_paper_with_citers doc with
        | error e => rw [hsc] at h; cases h
        | ok np =>
          rw [hsc] at h
          simp only [] at h
          cases hcs : np.citers with
          | none => rw [hcs] at h; cases h
          | some cs =>
            rw [hcs] at h
            simp only [Except.ok.injEq] at h
            have hdepth : citersDepth r =
                1 + citersDepthList (cs.filterMap fun c =>
                  (recursive_search_go F mrc d c).toOption) := by
              rw [← h]
              cases np with
              | mk t lk ci y cc cit cu => rfl
            rw [hdepth]
            have hlist : citersDepthList (cs.filterMap fun c =>
                (recursive_search_go F mrc d c).toOption) ≤ d := by
              apply citersDepthList_le
              intro x hx
              rcases List.mem_filterMap.mp hx with ⟨c, hc, hgc⟩
              have hok : recursive_search_go F mrc d c = .ok x := by
                cases hgo : recursive_search_go F mrc d c with
                | error e => rw [hgo] at hgc; cases hgc
                | ok y =>
                  rw [hgo] at hgc
                  simp only [Except.toOption, Option.some.injEq] at hgc
                  rw [hgc]
              have hcn : c.citers = none :=
                scrape_target_paper_with_citers_unexpanded hsc hcs c hc
              have := ih F mrc c x hok
              rw [citersDepth_none hcn] at this
              simpa using this
            calc 1 + citersDepthList _ ≤ 1 + d := by omega
            _ = d + 1 := by omega
            _ ≤ max (d + 1) (citersDepth p) := le_max_left _ _

/-- C3: recursive expansion terminates with its recursion bounded by the
remaining-depth budget, which strictly decreases on every recursive call and
is checked at entry (in the embedding this is literally the structural
recursion of `recursive_search_go` on the depth).  Consequently the `citers`
nesting of any successful result never exceeds the configured depth (or the
seed's own pre-existing nesting, which is only returned unchanged at depth
0), for every fetcher — including ones realising citation cycles, since no
visited-set deduplication exists. -/
theorem recursive_search_depth_bound (F : UrlT → Except BinErr Doc)
    (cfg : Config) (p r : Paper) (h : recursive_search F p cfg = .ok r) :
    citersDepth r ≤ max cfg.recursive_depth (citersDepth p) :=
  recursive_search_go_depth_le cfg.recursive_depth F cfg.max_result_count p r h

/-- Witness for C3 on the cyclic fetcher (paper 7 cites itself): the depth-2
expansion still returns, with nesting depth ≤ 2. -/
theorem recursive_search_depth_bound_witness :
    citersDepth cycResult ≤ max cfg2.recursive_depth
      (citersDepth (Paper.new (chars "Cyc") 7)) :=
  recursive_search_depth_bound fetchCyc cfg2 (Paper.new (chars "Cyc") 7) cycResult rfl

/-!
## Claim C1
-/

theorem except_toOption_none {ε α : Type} {e : Except ε α} (h : e.isOk = false) :
    e.toOption = none := by
  cases e with
  | error _ => rfl
  | ok _ => cases h

theorem filterMap_forall₂_some {α β : Type} {g : α → Option β} :
    ∀ {l : List α} {l' : List β}, List.Forall₂ (fun a b => g a = some b) l l' →
      l.filterMap g = l' := by
  intro l l' h
  induction h with
  | nil => rfl
  | cons ha _ ih =>
    rw [List.filterMap_cons]
    rw [ha, ih]

/-- C1: during recursive expansion with remaining depth ≥ 1, once the root
fetch of the current node succeeds (not blocked, page scrapes), a child whose
own expansion fails — for any reason: blocked page, scrape error, network
error — is dropped from the `citers` list, every succeeding sibling is kept
in order, and the call itself still returns successfully. -/
theorem recursive_search_drops_failing_child
    (F : UrlT → Except BinErr Doc) (cfg : Config) (p : Paper) (doc : Doc)
    (tp : Paper) (pre : List Paper) (bad : Paper) (post : List Paper)
    (lpre lpost : List Paper)
    (hd : cfg.recursive_depth ≠ 0)
    (hfetch : send_request_model F (recursive_query p cfg) = .ok doc)
    (hnb : is_blocked doc = false)
    (hscrape : scrape_target_paper_with_citers doc = .ok tp)
    (hcits : tp.citers = some (pre ++ bad :: post))
    (hbad : (recursive_search F bad
      { cfg with recursive_depth := cfg.recursive_depth - 1 }).isOk = false)
    (hpre : List.Forall₂ (fun c rc => recursive_search F c
      { cfg with recursive_depth := cfg.recursive_depth - 1 } = .ok rc) pre lpre)
    (hpost : List.Forall₂ (fun c rc => recursive_search F c
      { cfg with recursive_depth := cfg.recursive_depth - 1 } = .ok rc) post lpost) :
    recursive_search F p cfg = .ok { tp with citers := some (lpre ++ lpost) } := by
  rcases hdepth : cfg.recursive_depth with _ | d
  · exact absurd hdepth hd
  · have hq : recursive_query p cfg = recursive_query p
        { max_result_count := cfg.max_result_count, recursive_depth := d + 1
          output_format := .humanReadable, verbose := false } := by
      rw [recursive_query, recursive_query]
    rw [recursive_search, hdepth, recursive_search_go, ← hq, hfetch]
    simp only [hnb, Bool.false_eq_true, if_false, hscrape, hcits]
    have hgo : ∀ c : Paper, recursive_search_go F cfg.max_result_count d c =
        recursive_search F c { cfg with recursive_depth := cfg.recursive_depth - 1 } := by
      intro c
      rw [recursive_search]
      simp only [hdepth]
      rfl
    have hmap : (pre ++ bad :: post).filterMap (fun c =>
        (recursive_search_go F cfg.max_result_count d c).toOption) = lpre ++ lpost := by
      rw [List.filterMap_append, List.filterMap_cons]
      rw [hgo bad] at *
      rw [except_toOption_none hbad]
      rw [filterMap_forall₂_some (by
        refine hpre.imp ?_
        intro a b hab
        rw [hgo a, hab]
        rfl),
        filterMap_forall₂_some (by
          refine hpost.imp ?_
          intro a b hab
          rw [hgo a, hab]
          rfl)]
    rw [hmap]

/-- Witness for C1, the depth-2 scenario: the seed's page lists three citers;
the middle one's fetch hits a blocked page while its siblings succeed; the
result keeps both expanded sibling subtrees (in order), omits the blocked
branch, and the whole call succeeds. -/
theorem recursive_search_drops_failing_child_witness :
    recursive_search fetchC1 (Paper.new (chars "Seed") 1) cfg2 =
      .ok { seedTarget with citers := some ([expandedB] ++ [expandedC]) } :=
  recursive_search_drops_failing_child fetchC1 cfg2 (Paper.new (chars "Seed") 1)
    rootDoc seedTarget [paperB] paperA [paperC] [expandedB] [expandedC]
    (by decide) rfl rfl rfl rfl rfl
    (List.Forall₂.cons rfl List.Forall₂.nil)
    (List.Forall₂.cons rfl List.Forall₂.nil)

/-!
## Claim C5
-/

theorem sqreachable_count_le {q : SearchQuery} (h : SQReachable q) :
    q.max_result_count ≤ 10 := by
  induction h with
  | dflt => norm_num [SearchQuery.default, DEFAULT_MAX_RESULT_COUNT]
  | set_count q c _ _ =>
    simpa [SearchQuery.set_count, MAX_PAGE_RESULTS] using Nat.min_le_right c 10
  | set_words q w _ ih => simpa [SearchQuery.set_words] using ih
  | append_words q w _ ih =>
    rcases q with ⟨mc, ws, au, ti⟩
    cases ws <;> simpa [SearchQuery.append_words] using ih
  | set_phrase q p _ ih => simpa [SearchQuery.set_phrase, SearchQuery.set_words] using ih
  | append_phrase q p _ ih =>
    rcases q with ⟨mc, ws, au, ti⟩
    cases ws <;> simpa [SearchQuery.append_phrase, SearchQuery.append_words] using ih
  | set_authors q a _ ih => simpa [SearchQuery.set_authors] using ih
  | append_authors q a _ ih =>
    rcases q with ⟨mc, ws, au, ti⟩
    cases au <;> simpa [SearchQuery.append_authors] using ih
  | set_title_only q t _ ih => simpa [SearchQuery.set_title_only] using ih

/-- C5 (amended): for every valid `SearchQuery` reachable through the public
constructor and setters, `to_url` succeeds and the produced query string
carries `num=<stored count>` with the stored count at most 10 — `set_count`
silently rounds any request above 10 down to 10 rather than erroring.  (The
stored count can be 0, since `set_count` clamps only from above, so the
parameter lies in [0, 10] rather than the claimed [1, 10].) -/
theorem search_query_to_url_spec :
    (∀ q : SearchQuery, SQReachable q → q.is_valid = true →
      q.to_url = .ok { base := GOOGLESCHOLAR_URL_BASE, query := some (searchQueryString q) } ∧
      (∃ pre, searchQueryString q =
        pre ++ chars "&hl=en&num=" ++ natToDecChars q.max_result_count
          ++ chars "&as_sdt=0%2C5") ∧
      q.max_result_count ≤ 10)
    ∧
    (∀ (q : SearchQuery) (c : Nat), 10 < c → (q.set_count c).max_result_count = 10) := by
  constructor
  · intro q hq hv
    refine ⟨by rw [SearchQuery.to_url, if_pos hv], ?_, sqreachable_count_le hq⟩
    exact ⟨chars "as_q=" ++ q.words.getD []
      ++ chars "&as_epq=&as_eq=&as_occt="
      ++ (if q.title_only then chars "title" else chars "any")
      ++ chars "&as_sauthors=" ++ q.authors.getD []
      ++ chars "&as_publication=&as_ylo=&as_yhi=&as_vis=0&btnG=", rfl⟩
  · intro q c hc
    simp only [SearchQuery.set_count, MAX_PAGE_RESULTS]
    omega

/-- Counterexample to C5 as stated: the reachable, valid query `q0`
(`default`, `set_words "foo"`, `set_count 0`) produces a URL whose `num`
parameter is 0, outside the claimed [1, 10]. -/
theorem search_query_num_zero :
    SQReachable q0 ∧ q0.is_valid = true ∧
      q0.to_url = .ok { base := GOOGLESCHOLAR_URL_BASE
                        query := some (searchQueryString q0) } ∧
      numParamOf (searchQueryString q0) = some 0 :=
  ⟨SQReachable.set_count _ 0 (SQReachable.set_words _ (chars "foo") SQReachable.dflt),
   rfl, rfl, rfl⟩

/-- Witness for C5 at the reachable valid query `default.set_words "foo"`. -/
theorem search_query_to_url_spec_witness :
    (SearchQuery.default.set_words (chars "foo")).to_url =
      .ok { base := GOOGLESCHOLAR_URL_BASE
            query := some (searchQueryString (SearchQuery.default.set_words (chars "foo"))) } ∧
      (SearchQuery.default.set_words (chars "foo")).max_result_count ≤ 10 ∧
      ((SearchQuery.default.set_words (chars "foo")).set_count 11).max_result_count = 10 := by
  have h1 := search_query_to_url_spec.1 (SearchQuery.default.set_words (chars "foo"))
    (SQReachable.set_words _ (chars "foo") SQReachable.dflt) rfl
  exact ⟨h1.1, h1.2.2,
    search_query_to_url_spec.2 (SearchQuery.default.set_words (chars "foo")) 11 (by norm_num)⟩

/-!
## Claim C8
-/

/-- C8 (amended): `ClusterQuery::to_url` always succeeds.
`CitationQuery::to_url` is not total: when the stored citation URL parses to
a URL carrying no query string, `url.query().unwrap()` panics (modelled by
`none`); when the parsed citation URL does carry a query string, `to_url`
succeeds and appends `&hl=en&num=<count>` to it — the existing query string
is kept, not replaced. -/
theorem cluster_citation_to_url_spec :
    (∀ q : ClusterQuery, (ClusterQuery.to_url q).isOk = true)
    ∧
    (∀ (q : CitationQuery) (b qs : List Char),
      urlParse q.citation_url = some { base := b, query := some qs } →
      CitationQuery.to_url q =
        some { base := b
               query := some (qs ++ chars "&hl=en&num="
                 ++ natToDecChars q.max_result_count) })
    ∧
    (∀ (q : CitationQuery) (b : List Char),
      urlParse q.citation_url = some { base := b, query := none } →
      CitationQuery.to_url q = none) := by
  refine ⟨fun q => rfl, fun q b qs h => ?_, fun q b h => ?_⟩
  · rw [CitationQuery.to_url, h]
  · rw [CitationQuery.to_url, h]

/-- Counterexample to C8 as stated: on `"https://example.com"` (a URL with no
query string) `CitationQuery::to_url` panics on `url.query().unwrap()` —
modelled as `none` — rather than always succeeding. -/
theorem citation_to_url_panics :
    CitationQuery.to_url (CitationQuery.new (chars "https://example.com")) = none := rfl

/-- Witness for C8: the query string of the paper's own citation URL — and of
a non-http(s)-scheme URL such as `ftp://` — is kept with `&hl=en&num=5`
appended after it, while a query-less non-special-scheme URL (`mailto:`)
takes the panic path. -/
theorem cluster_citation_to_url_spec_witness :
    (ClusterQuery.to_url (ClusterQuery.new 9)).isOk = true ∧
      CitationQuery.to_url (CitationQuery.new (cluster_id_to_citation_url 0)) =
        some { base := GOOGLESCHOLAR_URL_BASE
               query := some (chars "cites=0" ++ chars "&hl=en&num="
                 ++ natToDecChars 5) } ∧
      CitationQuery.to_url (CitationQuery.new (chars "ftp://example.com?a=1")) =
        some { base := chars "ftp://example.com"
               query := some (chars "a=1" ++ chars "&hl=en&num="
                 ++ natToDecChars 5) } ∧
      CitationQuery.to_url (CitationQuery.new (chars "mailto:someone")) = none :=
  ⟨cluster_citation_to_url_spec.1 (ClusterQuery.new 9),
   cluster_citation_to_url_spec.2.1 (CitationQuery.new (cluster_id_to_citation_url 0))
     GOOGLESCHOLAR_URL_BASE (chars "cites=0") rfl,
   cluster_citation_to_url_spec.2.1 (CitationQuery.new (chars "ftp://example.com?a=1"))
     (chars "ftp://example.com") (chars "a=1") rfl,
   cluster_citation_to_url_spec.2.2 (CitationQuery.new (chars "mailto:someone"))
     (chars "mailto:someone") rfl⟩
